import Mathlib

/-!
# Verification of the calorai-calc-ai nutrition calculator

Shallow embedding of the nutrition-tracking app's pure core:

* `src/utils/calculations.ts` — `calculateTotals`, `calculatePer100g`,
  `calculateProgressPercentages`;
* `src/services/aiService.ts`  — `parseNutrientValue`, `parseIngredients`,
  and the JSON-extraction fallback of `callAI`;
* the `App` component — the `progressPercentages` load-time migration
  and `handleRemoveMeal`.

JavaScript numbers are modelled as exact rationals (`ℚ`): the claims under
study concern arithmetic structure (per-item rounding, zero-goal guards,
defaulting), not binary floating-point artifacts, and the model has no
NaN / Infinity.  `Math.round x` is `⌊x + 1/2⌋` (round half toward +∞),
and `x.toFixed(1)` (re-read through `Number`) is `⌊10·x + 1/2⌋ / 10`,
both matching the ECMAScript definitions on the rationals.
-/

/-- `Math.round`: round half toward +∞, per ECMA-262. -/
def jsRound (q : ℚ) : ℤ := ⌊q + 1/2⌋

/-- `Number(x.toFixed(1))`: round to one decimal place; ECMA-262 picks the
larger candidate on ties, i.e. `⌊10·x + 1/2⌋ / 10`. -/
def toFixed1 (q : ℚ) : ℚ := ((jsRound (q * 10) : ℤ) : ℚ) / 10

/-- The JS idiom `x || 0` on a number: `0` when `x` is falsy (i.e. `0`;
the `ℚ` model has no NaN), otherwise `x` itself. -/
def orZero (q : ℚ) : ℚ := if q = 0 then 0 else q

theorem orZero_eq_self (q : ℚ) : orZero q = q := by
  unfold orZero; split <;> simp_all

/-- Per-100g nutrient record (the `baseCPFC` shape of `src/types.ts`,
also the return shape of `calculatePer100g`). -/
structure CPFC where
  calories : ℚ
  protein : ℚ
  fat : ℚ
  carbohydrate : ℚ
  fiber : ℚ
deriving DecidableEq

/-- `Ingredient` from `src/types.ts`. -/
structure Ingredient where
  id : String
  name : String
  weight : ℚ
  baseCPFC : CPFC
deriving DecidableEq

/-- The accumulator / result shape of `calculateTotals`
(`dailyTotals` of `src/types.ts`). -/
structure Totals where
  calories : ℚ
  protein : ℚ
  fat : ℚ
  carbohydrate : ℚ
  fiber : ℚ
  weight : ℚ
deriving DecidableEq

/-- One step of the `reduce` in `calculateTotals`
(`src/utils/calculations.ts` lines 6–24). -/
def totalsStep (totals : Totals) (item : Ingredient) : Totals :=
  let r := (orZero item.weight) / 100
  { calories := totals.calories + ((jsRound ((orZero item.baseCPFC.calories) * r) : ℤ) : ℚ)
    protein := totals.protein + (orZero item.baseCPFC.protein) * r
    fat := totals.fat + (orZero item.baseCPFC.fat) * r
    carbohydrate := totals.carbohydrate + (orZero item.baseCPFC.carbohydrate) * r
    fiber := totals.fiber + (orZero item.baseCPFC.fiber) * r
    weight := totals.weight + orZero item.weight }

/-- `calculateTotals` (`src/utils/calculations.ts`): a left fold of
`totalsStep` over the ingredient list, starting from the all-zero record. -/
def calculateTotals (ingredientsList : List Ingredient) : Totals :=
  ingredientsList.foldl totalsStep ⟨0, 0, 0, 0, 0, 0⟩

/-- `calculatePer100g` (`src/utils/calculations.ts` lines 67–87). -/
def calculatePer100g (ingredientsList : List Ingredient) : CPFC :=
  let totals := calculateTotals ingredientsList
  if totals.weight = 0 then
    { calories := 0, protein := 0, fat := 0, carbohydrate := 0, fiber := 0 }
  else
    let r := 100 / totals.weight
    { calories := ((jsRound (totals.calories * r) : ℤ) : ℚ)
      protein := toFixed1 (totals.protein * r)
      fat := toFixed1 (totals.fat * r)
      carbohydrate := toFixed1 (totals.carbohydrate * r)
      fiber := toFixed1 (totals.fiber * r) }

/-- Daily goals as consumed by `calculateProgressPercentages`
(the `dailyGoals` parameter shape). -/
structure DailyGoals where
  targetCalories : ℚ
  protein : ℚ
  fat : ℚ
  carbohydrate : ℚ
  fiber : ℚ
deriving DecidableEq

/-- The percentage record returned by `calculateProgressPercentages`. -/
structure Progress where
  calories : ℚ
  protein : ℚ
  fat : ℚ
  carbohydrate : ℚ
  fiber : ℚ
deriving DecidableEq

/-- `calculateProgressPercentages` (`src/utils/calculations.ts` lines
92–129): `null` when `dailyGoals` is null; otherwise each field is
`Math.round((actual / goal) * 100)` when the goal is positive, else `0`. -/
def calculateProgressPercentages (dailyTotals : Totals)
    (dailyGoals : Option DailyGoals) : Option Progress :=
  match dailyGoals with
  | none => none
  | some g => some
    { calories := if 0 < g.targetCalories
        then ((jsRound (dailyTotals.calories / g.targetCalories * 100) : ℤ) : ℚ) else 0
      protein := if 0 < g.protein
        then ((jsRound (dailyTotals.protein / g.protein * 100) : ℤ) : ℚ) else 0
      fat := if 0 < g.fat
        then ((jsRound (dailyTotals.fat / g.fat * 100) : ℤ) : ℚ) else 0
      carbohydrate := if 0 < g.carbohydrate
        then ((jsRound (dailyTotals.carbohydrate / g.carbohydrate * 100) : ℤ) : ℚ) else 0
      fiber := if 0 < g.fiber
        then ((jsRound (dailyTotals.fiber / g.fiber * 100) : ℤ) : ℚ) else 0 }

/-- One meal of a `HistoryEntry` (`src/types.ts`): a type tag plus its
ingredient list.  The surrounding `{ [mealId]: ... }` map is modelled as an
association list preserving JS insertion order. -/
structure Meal where
  type : String
  ingredients : List Ingredient
deriving DecidableEq

/-- `HistoryEntry` of `src/types.ts`.  `progressPercentages` is the optional
derived field added by the load-time migration (absent = `undefined`). -/
structure DayEntry where
  meals : List (String × Meal)
  dailyTotals : Totals
  progressPercentages : Option Progress
deriving DecidableEq

/-- `History` of `src/types.ts`: a date-keyed map, modelled as an
association list in JS insertion order. -/
abbrev History := List (String × DayEntry)

/-- JS property access `h[date]` on the history object: the value at the
first matching key, or `undefined` (`none`). -/
def findEntry : History → String → Option DayEntry
  | [], _ => none
  | e :: rest, date => if e.1 = date then some e.2 else findEntry rest date

/-- The load-time migration `useEffect` of the `App` component: runs only
when `userProfile.dailyGoals` is present (hence `goals` is a plain
argument here); returns the history unchanged when it is empty or when no
entry lacks `progressPercentages`, and otherwise rebuilds every entry with
`progressPercentages` recomputed from its `dailyTotals` and the current
goals.  (`calculateProgressPercentages (...) || undefined` keeps the
computed record and turns `null` into `undefined`, i.e. it is the identity
on the `Option`.) -/
def migrateOnLoad (h : History) (goals : DailyGoals) : History :=
  if h.isEmpty then h
  else if ¬ h.any (fun e => e.2.progressPercentages.isNone) then h
  else h.map fun e =>
    (e.1, { e.2 with progressPercentages :=
              calculateProgressPercentages e.2.dailyTotals (some goals) })

/-- `handleRemoveMeal` of the `App` component: delete `mealId` from the
date's meal map; if no meals remain, delete the date key itself; otherwise
recompute `dailyTotals` from the remaining meals' ingredients and
`progressPercentages` from those totals and the (possibly absent) goals. -/
def removeMeal (h : History) (goals : Option DailyGoals)
    (date mealId : String) : History :=
  match findEntry h date with
  | none => h
  | some day =>
    let meals2 := day.meals.filter fun m => m.1 ≠ mealId
    if meals2.isEmpty then
      h.filter fun e => e.1 ≠ date
    else
      let totals := calculateTotals (meals2.flatMap fun m => m.2.ingredients)
      h.map fun e =>
        if e.1 = date then
          (e.1, { meals := meals2, dailyTotals := totals,
                  progressPercentages := calculateProgressPercentages totals goals })
        else e

/-- A JavaScript/JSON value, as handled by the `any`-typed parsing code of
`src/services/aiService.ts`.  Numbers are exact rationals (no NaN /
Infinity in the model). -/
inductive JSVal where
  | null
  | undefinedV
  | bool (b : Bool)
  | num (q : ℚ)
  | str (s : String)
  | arr (items : List JSVal)
  | obj (fields : List (String × JSVal))

/-- JS truthiness of a value (`!x` is its negation). -/
def jsTruthy : JSVal → Bool
  | .null => false
  | .undefinedV => false
  | .bool b => b
  | .num q => decide (q ≠ 0)
  | .str s => decide (s ≠ "")
  | .arr _ => true
  | .obj _ => true

/-- Property read on an object's field list: first matching key, else
`undefined`. -/
def getField : List (String × JSVal) → String → JSVal
  | [], _ => .undefinedV
  | f :: rest, k => if f.1 = k then f.2 else getField rest k

/-- Property read `v.k` on an arbitrary value: `undefined` unless `v` is an
object owning the property (the parsing code never reads properties that
arrays or primitives own). -/
def objGet (v : JSVal) (k : String) : JSVal :=
  match v with
  | .obj fields => getField fields k
  | _ => .undefinedV

/-- Object-literal update `{...o, k: v}` for a single key: replace the
first occurrence of `k` in place, else append (JS objects keep the key's
original position when overwritten by spread). -/
def setField : List (String × JSVal) → String → JSVal → List (String × JSVal)
  | [], k, v => [(k, v)]
  | f :: rest, k, v => if f.1 = k then (f.1, v) :: rest else f :: setField rest k v

/-- `String.prototype.replace` with a string pattern replaces only the
first occurrence; `value.replace(',', '.')` — over the character list. -/
def replaceFirst : List Char → Char → Char → List Char
  | [], _, _ => []
  | c :: rest, a, b => if c = a then b :: rest else c :: replaceFirst rest a b

/-- Numeric value of a digit string (most significant first). -/
def digitsVal (ds : List Char) : ℕ :=
  ds.foldl (fun acc c => acc * 10 + (c.toNat - 48)) 0

/-- `parseFloat`, per ECMA-262 on the `ℚ` model: skip leading whitespace,
optional sign, the longest decimal-literal prefix (integer part, optional
fraction, optional exponent; at least one digit required in the mantissa),
ignoring any trailing garbage; `none` is NaN.  (`Infinity` inputs are
outside the rational model.) -/
def jsParseFloat (s : String) : Option ℚ :=
  let cs := s.toList.dropWhile Char.isWhitespace
  let sgn : ℚ × List Char :=
    match cs with
    | '-' :: t => (-1, t)
    | '+' :: t => (1, t)
    | _ => (1, cs)
  let ipSplit := sgn.2.span Char.isDigit
  let fpSplit : List Char × List Char :=
    match ipSplit.2 with
    | '.' :: t => t.span Char.isDigit
    | _ => ([], ipSplit.2)
  if ipSplit.1.isEmpty ∧ fpSplit.1.isEmpty then none
  else
    let mant : ℚ := (digitsVal ipSplit.1 : ℚ) +
      (digitsVal fpSplit.1 : ℚ) / (10 : ℚ) ^ fpSplit.1.length
    let expo : ℤ :=
      match fpSplit.2 with
      | c :: t =>
        if c = 'e' ∨ c = 'E' then
          let esgn : ℤ × List Char :=
            match t with
            | '-' :: u => (-1, u)
            | '+' :: u => (1, u)
            | _ => (1, t)
          let ed := esgn.2.takeWhile Char.isDigit
          if ed.isEmpty then 0 else esgn.1 * (digitsVal ed : ℤ)
        else 0
      | [] => 0
    some (sgn.1 * mant * (10 : ℚ) ^ expo)

/-- `parseNutrientValue` (`src/services/aiService.ts` lines 11–18):
numbers pass through; strings get their first comma replaced by a dot and
are `parseFloat`-ed, NaN collapsing to `0`; everything else is `0`. -/
def parseNutrientValue (value : JSVal) : ℚ :=
  match value with
  | .num q => q
  | .str s =>
    match jsParseFloat (String.mk (replaceFirst s.toList ',' '.')) with
    | some parsed => parsed
    | none => 0
  | _ => 0

/-- The normalization `parseIngredients` applies to one array element:
`null` (dropped) unless the element is a non-null object with a truthy
`name`; a `typeof item !== 'object'` value, `null` itself, and an array
(whose `name` is `undefined` in the model) all fail that guard, so only
`.obj` survives.  A survivor is rebuilt by object spread with the six
nutrient fields coerced, `weight` falling back to `100` when its coercion
is falsy (`|| 100`). -/
def normalizeItem (item : JSVal) : Option JSVal :=
  match item with
  | .obj fields =>
    if jsTruthy (getField fields "name") then
      let w := parseNutrientValue (getField fields "weight")
      some (.obj
        (setField
          (setField
            (setField
              (setField
                (setField
                  (setField fields
                    "calories" (.num (parseNutrientValue (getField fields "calories"))))
                  "protein" (.num (parseNutrientValue (getField fields "protein"))))
                "fat" (.num (parseNutrientValue (getField fields "fat"))))
              "carbohydrate" (.num (parseNutrientValue (getField fields "carbohydrate"))))
            "fiber" (.num (parseNutrientValue (getField fields "fiber"))))
          "weight" (.num (if w = 0 then 100 else w))))
    else none
  | _ => none

/-- `parseIngredients` (`src/services/aiService.ts` lines 20–38): `null`
for non-arrays; map `normalizeItem` and drop the `null`s; `null` instead
of an empty survivor list. -/
def parseIngredients (data : JSVal) : Option (List JSVal) :=
  match data with
  | .arr items =>
    let parsedData := (items.map normalizeItem).filterMap id
    if 0 < parsedData.length then some parsedData else none
  | _ => none

/-- JSON whitespace (`JSON.parse` accepts exactly these four). -/
def jsonWs (c : Char) : Bool := c = ' ' || c = '\t' || c = '\n' || c = '\r'

/-- Drop leading JSON whitespace. -/
def skipWs (cs : List Char) : List Char := cs.dropWhile jsonWs

/-- Strip an expected literal from the front of the input. -/
def stripLit : List Char → List Char → Option (List Char)
  | [], cs => some cs
  | l :: ls, c :: cs => if c = l then stripLit ls cs else none
  | _ :: _, [] => none

/-- One-character JSON string escape (`\u` hex escapes are outside the
model; none of the claims exercise them). -/
def unescapeChar (c : Char) : Char :=
  if c = 'n' then '\n' else if c = 't' then '\t' else if c = 'r' then '\r' else c

/-- Body of a JSON string after the opening quote: the decoded characters
and the rest of the input after the closing quote. -/
def parseStringBody : List Char → Option (List Char × List Char)
  | [] => none
  | '"' :: rest => some ([], rest)
  | '\\' :: c :: rest =>
    match parseStringBody rest with
    | some (s, r) => some (unescapeChar c :: s, r)
    | none => none
  | c :: rest =>
    match parseStringBody rest with
    | some (s, r) => some (c :: s, r)
    | none => none

/-- A JSON number literal at the front of the input: optional minus,
integer digits, optional fraction, optional exponent. -/
def parseJsonNumber (cs : List Char) : Option (ℚ × List Char) :=
  let sgn : ℚ × List Char :=
    match cs with
    | '-' :: t => (-1, t)
    | _ => (1, cs)
  let ipSplit := sgn.2.span Char.isDigit
  if ipSplit.1.isEmpty then none
  else
    let fpSplit : List Char × List Char :=
      match ipSplit.2 with
      | '.' :: t =>
        let d := t.span Char.isDigit
        if d.1.isEmpty then ([], ipSplit.2) else d
      | _ => ([], ipSplit.2)
    let exSplit : ℤ × List Char :=
      match fpSplit.2 with
      | c :: t =>
        if c = 'e' ∨ c = 'E' then
          let esgn : ℤ × List Char :=
            match t with
            | '-' :: u => (-1, u)
            | '+' :: u => (1, u)
            | _ => (1, t)
          let ed := esgn.2.span Char.isDigit
          if ed.1.isEmpty then (0, fpSplit.2) else (esgn.1 * (digitsVal ed.1 : ℤ), ed.2)
        else (0, fpSplit.2)
      | [] => (0, fpSplit.2)
    some (sgn.1 * ((digitsVal ipSplit.1 : ℚ) +
        (digitsVal fpSplit.1 : ℚ) / (10 : ℚ) ^ fpSplit.1.length) *
      (10 : ℚ) ^ exSplit.1, exSplit.2)

mutual

/-- Recursive-descent `JSON.parse` value parser (fuel-indexed; the callers
always supply enough fuel, one unit per nesting level). -/
def parseJsonVal : Nat → List Char → Option (JSVal × List Char)
  | 0, _ => none
  | fuel + 1, cs =>
    match skipWs cs with
    | [] => none
    | c :: rest =>
      if c = '{' then
        match skipWs rest with
        | '}' :: r2 => some (.obj [], r2)
        | r2 =>
          match parseJsonMembers fuel r2 with
          | some (fs, r3) => some (.obj fs, r3)
          | none => none
      else if c = '[' then
        match skipWs rest with
        | ']' :: r2 => some (.arr [], r2)
        | r2 =>
          match parseJsonElems fuel r2 with
          | some (vs, r3) => some (.arr vs, r3)
          | none => none
      else if c = '"' then
        match parseStringBody rest with
        | some (s, r) => some (.str (String.mk s), r)
        | none => none
      else if c = 't' then
        match stripLit ['r', 'u', 'e'] rest with
        | some r => some (.bool true, r)
        | none => none
      else if c = 'f' then
        match stripLit ['a', 'l', 's', 'e'] rest with
        | some r => some (.bool false, r)
        | none => none
      else if c = 'n' then
        match stripLit ['u', 'l', 'l'] rest with
        | some r => some (.null, r)
        | none => none
      else
        match parseJsonNumber (c :: rest) with
        | some (q, r) => some (.num q, r)
        | none => none

/-- Nonempty comma-separated element list of a JSON array, up to and
including the closing bracket. -/
def parseJsonElems : Nat → List Char → Option (List JSVal × List Char)
  | 0, _ => none
  | fuel + 1, cs =>
    match parseJsonVal fuel cs with
    | none => none
    | some (v, r) =>
      match skipWs r with
      | ',' :: r2 =>
        match parseJsonElems fuel r2 with
        | some (vs, r3) => some (v :: vs, r3)
        | none => none
      | ']' :: r2 => some ([v], r2)
      | _ => none

/-- Nonempty member list of a JSON object, up to and including the
closing brace. -/
def parseJsonMembers : Nat → List Char → Option (List (String × JSVal) × List Char)
  | 0, _ => none
  | fuel + 1, cs =>
    match skipWs cs with
    | '"' :: r =>
      match parseStringBody r with
      | none => none
      | some (k, r1) =>
        match skipWs r1 with
        | ':' :: r2 =>
          match parseJsonVal fuel r2 with
          | none => none
          | some (v, r3) =>
            match skipWs r3 with
            | ',' :: r4 =>
              match parseJsonMembers fuel r4 with
              | some (fs, r5) => some ((String.mk k, v) :: fs, r5)
              | none => none
            | '}' :: r4 => some ([(String.mk k, v)], r4)
            | _ => none
        | _ => none
    | _ => none

end

/-- `JSON.parse`: parse one value and require only whitespace after it. -/
def jsonParse (s : String) : Option JSVal :=
  match parseJsonVal (s.length + 1) s.toList with
  | some (v, rest) => if (skipWs rest).isEmpty then some v else none
  | none => none

/-- The regex fallback of `callAI`: `content.match(/\x7b[\s\S]*\x7d/)`.
The greedy match runs from the first opening brace to the last closing
brace, and exists exactly when some closing brace follows the first
opening brace. -/
def extractBraced (s : String) : Option String :=
  let cs := s.toList
  match cs.findIdx? (· == '{'), cs.reverse.findIdx? (· == '}') with
  | some i, some jr =>
    let j := cs.length - 1 - jr
    if i < j then some (String.mk ((cs.drop i).take (j - i + 1))) else none
  | _, _ => none

/-- Substring test (used only to state what the thrown error does NOT
contain). -/
def strContainsSub (hay needle : String) : Bool :=
  hay.toList.tails.any fun t => needle.toList.isPrefixOf t

/-- The fixed message of the `Error` thrown by `callAI` when no JSON can
be extracted. -/
def aiErrorMsg : String := "Не удалось извлечь JSON из ответа AI"

/-- The two failure modes of the JSON-extraction block in `callAI`. -/
inductive ExtractError where
  /-- the second `JSON.parse` threw on the braced substring and that
  exception propagated -/
  | jsonError
  /-- the explicit `throw new Error(aiErrorMsg)` when no braced substring
  exists -/
  | noJson (msg : String)
deriving DecidableEq

/-- The `isJson` branch of `callAI` (`src/services/aiService.ts` lines
117–129): try `JSON.parse` on the whole content; on failure match the
brace-delimited substring and parse that; with no substring, throw the
fixed message. -/
def extractJson (content : String) : Except ExtractError JSVal :=
  match jsonParse content with
  | some v => .ok v
  | none =>
    match extractBraced content with
    | some sub =>
      match jsonParse sub with
      | some v => .ok v
      | none => .error .jsonError
    | none => .error (.noJson aiErrorMsg)
theorem foldl_totalsStep_eq (l : List Ingredient) (t : Totals) :
    l.foldl totalsStep t =
      { calories := t.calories +
          (l.map fun i => ((jsRound (i.baseCPFC.calories * (i.weight / 100)) : ℤ) : ℚ)).sum
        protein := t.protein + (l.map fun i => i.baseCPFC.protein * (i.weight / 100)).sum
        fat := t.fat + (l.map fun i => i.baseCPFC.fat * (i.weight / 100)).sum
        carbohydrate := t.carbohydrate +
          (l.map fun i => i.baseCPFC.carbohydrate * (i.weight / 100)).sum
        fiber := t.fiber + (l.map fun i => i.baseCPFC.fiber * (i.weight / 100)).sum
        weight := t.weight + (l.map fun i => i.weight).sum } := by
  induction l generalizing t with
  | nil => simp
  | cons x xs ih =>
    simp only [List.foldl_cons, ih, List.map_cons, List.sum_cons, totalsStep, orZero_eq_self]
    congr 1 <;> ring

/-- C1: `calculateTotals` sums the ingredients' weights, sums calories with
`Math.round` applied per ingredient (to `baseCPFC.calories * weight/100`)
before summing, and sums protein / fat / carbohydrate / fiber at full
precision; the two-ingredient example (150g at 165 kcal/100g, 70g at
15 kcal/100g) totals 259 kcal. -/
theorem calculateTotals_per_item_rounding :
    (∀ l : List Ingredient,
      (calculateTotals l).weight = (l.map fun i => i.weight).sum ∧
      (calculateTotals l).calories =
        (l.map fun i => ((jsRound (i.baseCPFC.calories * (i.weight / 100)) : ℤ) : ℚ)).sum ∧
      (calculateTotals l).protein = (l.map fun i => i.baseCPFC.protein * (i.weight / 100)).sum ∧
      (calculateTotals l).fat = (l.map fun i => i.baseCPFC.fat * (i.weight / 100)).sum ∧
      (calculateTotals l).carbohydrate =
        (l.map fun i => i.baseCPFC.carbohydrate * (i.weight / 100)).sum ∧
      (calculateTotals l).fiber = (l.map fun i => i.baseCPFC.fiber * (i.weight / 100)).sum) ∧
    (calculateTotals [⟨"1", "chicken", 150, ⟨165, 31, 0, 0, 0⟩⟩,
        ⟨"2", "lettuce", 70, ⟨15, 0, 0, 0, 0⟩⟩]).calories = 259 := by
  constructor
  · intro l
    simp [calculateTotals, foldl_totalsStep_eq]
  · norm_num [calculateTotals, totalsStep, orZero, jsRound]
/-- A stub meal for concrete histories. -/
def mealStub : Meal := ⟨"lunch", []⟩

/-- Concrete day totals used in the migration counterexample. -/
def totalsEx : Totals := ⟨100, 0, 0, 0, 0, 100⟩

/-- An already-migrated entry whose stored percentages (999%) disagree
with what the current goals would give. -/
def dayMigrated : DayEntry := ⟨[("m1", mealStub)], totalsEx, some ⟨999, 0, 0, 0, 0⟩⟩

/-- An entry still lacking `progressPercentages`. -/
def dayUnmigrated : DayEntry := ⟨[("m2", mealStub)], totalsEx, none⟩

/-- Goals under which 100 kcal of 200 kcal is 50%. -/
def goalsEx : DailyGoals := ⟨200, 0, 0, 0, 0⟩

/-- History mixing a migrated and an unmigrated entry. -/
def histEx : History := [("2024-01-01", dayMigrated), ("2024-01-02", dayUnmigrated)]

/-- C2 counterexample: in `histEx` the first entry already carries
`progressPercentages` (999%), but because the second entry lacks the
field, the migration rebuilds every entry and overwrites the first one's
stored 999% with the recomputed 50% — an already-migrated entry is NOT
left unchanged. -/
theorem migrateOnLoad_overwrites_migrated_entry :
    (histEx.head?.map fun e => e.2.progressPercentages) = some (some ⟨999, 0, 0, 0, 0⟩) ∧
    ((migrateOnLoad histEx goalsEx).head?.map fun e => e.2.progressPercentages) =
      some (some ⟨50, 0, 0, 0, 0⟩) := by
  constructor
  · rfl
  · norm_num [migrateOnLoad, histEx, dayMigrated, dayUnmigrated, totalsEx, goalsEx,
      calculateProgressPercentages, jsRound]

/-- C2 (amended): the migration never touches keys, meals or
`dailyTotals` of any entry, and when every entry already has
`progressPercentages` it returns the history unchanged; but when some
entry lacks the field, every entry — including already-migrated ones —
gets `progressPercentages` recomputed from its `dailyTotals` and the
current goals, possibly overwriting a stored value. -/
theorem migrateOnLoad_frame :
    (∀ (h : History) (g : DailyGoals),
      (migrateOnLoad h g).map (fun e => (e.1, e.2.meals, e.2.dailyTotals)) =
        h.map fun e => (e.1, e.2.meals, e.2.dailyTotals)) ∧
    (∀ (h : History) (g : DailyGoals),
      (∀ e ∈ h, e.2.progressPercentages.isSome) → migrateOnLoad h g = h) := by
  constructor
  · intro h g
    unfold migrateOnLoad
    by_cases he : h.isEmpty
    · simp [he]
    · by_cases hm : h.any fun e => e.2.progressPercentages.isNone
      · simp [he, hm, List.map_map, Function.comp_def]
      · simp [he, hm]
  · intro h g hall
    have hm : (h.any fun e => e.2.progressPercentages.isNone) = false := by
      simp only [List.any_eq_false]
      intro e he
      simp [Option.isNone_iff_eq_none]
      exact Option.isSome_iff_ne_none.mp (hall e he)
    unfold migrateOnLoad
    simp [hm]

/-- C2 witness: the amended theorem applied to a one-entry, fully
migrated history — the migration leaves it unchanged and preserves its
totals. -/
theorem migrateOnLoad_frame_witness :
    (migrateOnLoad [("2024-01-01", dayMigrated)] goalsEx).map
        (fun e => (e.1, e.2.meals, e.2.dailyTotals)) =
      [("2024-01-01", dayMigrated)].map (fun e => (e.1, e.2.meals, e.2.dailyTotals)) ∧
    migrateOnLoad [("2024-01-01", dayMigrated)] goalsEx = [("2024-01-01", dayMigrated)] :=
  ⟨migrateOnLoad_frame.1 [("2024-01-01", dayMigrated)] goalsEx,
   migrateOnLoad_frame.2 [("2024-01-01", dayMigrated)] goalsEx
     (by intro e he; simp [dayMigrated] at he ⊢; simp [he])⟩

/-- C3: the load-time migration is idempotent — a second run returns the
first run's history unchanged (after one run every entry has
`progressPercentages`, so the second run's "needs migration" test fails). -/
theorem migrateOnLoad_idempotent (h : History) (g : DailyGoals) :
    migrateOnLoad (migrateOnLoad h g) g = migrateOnLoad h g := by
  unfold migrateOnLoad
  by_cases he : h.isEmpty
  · simp [he]
  · by_cases hm : h.any fun e => e.2.progressPercentages.isNone
    · have h1 : ((h.map fun e =>
          ((e.1 : String), { e.2 with progressPercentages :=
            calculateProgressPercentages e.2.dailyTotals (some g) })).isEmpty) = false := by
        cases h with
        | nil => simp at he
        | cons x xs => simp
      have h2 : ((h.map fun e =>
          ((e.1 : String), { e.2 with progressPercentages :=
            calculateProgressPercentages e.2.dailyTotals (some g) })).any
            fun e => e.2.progressPercentages.isNone) = false := by
        simp [List.any_map, Function.comp_def, calculateProgressPercentages]
      simp [he, hm, h1, h2]
    · simp [he, hm]
theorem findEntry_eq_none_iff (h : History) (d : String) :
    findEntry h d = none ↔ ∀ e ∈ h, e.1 ≠ d := by
  induction h with
  | nil => simp [findEntry]
  | cons x xs ih =>
    by_cases hx : x.1 = d
    · simp [findEntry, hx]
    · simp [findEntry, hx, ih]

theorem findEntry_filter_ne (h : History) (d : String) :
    findEntry (h.filter fun e => e.1 ≠ d) d = none := by
  rw [findEntry_eq_none_iff]
  intro e he
  exact of_decide_eq_true (List.mem_filter.mp he).2

theorem findEntry_map_update (h : History) (d : String) (nd : DayEntry)
    (hne : findEntry h d ≠ none) :
    findEntry (h.map fun e => if e.1 = d then (e.1, nd) else e) d = some nd := by
  induction h with
  | nil => simp [findEntry] at hne
  | cons x xs ih =>
    by_cases hx : x.1 = d
    · simp [findEntry, hx]
    · have hne' : findEntry xs d ≠ none := by
        simpa [findEntry, hx] using hne
      simpa [findEntry, hx] using ih hne'

theorem not_mem_map_fst_filter_ne (ms : List (String × Meal)) (mealId : String) :
    mealId ∉ (ms.filter fun m => m.1 ≠ mealId).map Prod.fst := by
  simp only [List.mem_map, not_exists]
  rintro m ⟨hm, hfst⟩
  have := (List.mem_filter.mp hm).2
  simp [hfst] at this

/-- C4: `removeMeal date mealId` removes that meal from the date's entry;
if no meals remain the date key is deleted outright (preserving the
"no empty days" invariant), and otherwise the date's entry is rebuilt with
`dailyTotals` recomputed from the remaining meals' ingredients and
`progressPercentages` recomputed from those totals. -/
theorem removeMeal_spec (h : History) (g : Option DailyGoals) (date mealId : String) :
    ((∀ e ∈ h, e.2.meals ≠ []) → ∀ e ∈ removeMeal h g date mealId, e.2.meals ≠ []) ∧
    (∀ e ∈ removeMeal h g date mealId, e.1 = date → mealId ∉ e.2.meals.map Prod.fst) ∧
    (∀ day : DayEntry, findEntry h date = some day →
      (day.meals.filter fun m => m.1 ≠ mealId) = [] →
      findEntry (removeMeal h g date mealId) date = none) ∧
    (∀ day : DayEntry, findEntry h date = some day →
      (day.meals.filter fun m => m.1 ≠ mealId) ≠ [] →
      findEntry (removeMeal h g date mealId) date = some
        { meals := day.meals.filter fun m => m.1 ≠ mealId
          dailyTotals := calculateTotals
            ((day.meals.filter fun m => m.1 ≠ mealId).flatMap fun m => m.2.ingredients)
          progressPercentages := calculateProgressPercentages
            (calculateTotals
              ((day.meals.filter fun m => m.1 ≠ mealId).flatMap fun m => m.2.ingredients)) g }) := by
  cases hf : findEntry h date with
  | none =>
    have hrm : removeMeal h g date mealId = h := by rw [removeMeal, hf]
    refine ⟨?_, ?_, ?_, ?_⟩
    · intro hne e he
      rw [hrm] at he
      exact hne e he
    · intro e he hd
      rw [hrm] at he
      exact absurd hd ((findEntry_eq_none_iff h date).mp hf e he)
    · intro day hday
      exact Option.noConfusion hday
    · intro day hday
      exact Option.noConfusion hday
  | some day =>
    by_cases hm : (day.meals.filter fun m => m.1 ≠ mealId).isEmpty = true
    · have hrm : removeMeal h g date mealId = h.filter fun e => e.1 ≠ date := by
        simp only [removeMeal, hf]
        rw [if_pos hm]
      have hnil : (day.meals.filter fun m => m.1 ≠ mealId) = [] := by
        cases hq : day.meals.filter fun m => m.1 ≠ mealId with
        | nil => rfl
        | cons a as => rw [hq] at hm; cases hm
      refine ⟨?_, ?_, ?_, ?_⟩
      · intro hne e he
        rw [hrm] at he
        exact hne e (List.mem_filter.mp he).1
      · intro e he hd
        rw [hrm] at he
        exact absurd hd (of_decide_eq_true (List.mem_filter.mp he).2)
      · intro day' hday' _
        rw [hrm]
        exact findEntry_filter_ne h date
      · intro day' hday' hne
        have hdd : day = day' := Option.some.inj hday'
        exact absurd (hdd ▸ hnil) hne
    · have hmne : (day.meals.filter fun m => m.1 ≠ mealId) ≠ [] := by
        intro hnil
        exact hm (by rw [hnil]; rfl)
      have hrm : removeMeal h g date mealId = h.map fun e =>
          if e.1 = date then
            (e.1, { meals := day.meals.filter fun m => m.1 ≠ mealId
                    dailyTotals := calculateTotals
                      ((day.meals.filter fun m => m.1 ≠ mealId).flatMap
                        fun m => m.2.ingredients)
                    progressPercentages := calculateProgressPercentages
                      (calculateTotals
                        ((day.meals.filter fun m => m.1 ≠ mealId).flatMap
                          fun m => m.2.ingredients)) g })
          else e := by
        simp only [removeMeal, hf]
        rw [if_neg hm]
      refine ⟨?_, ?_, ?_, ?_⟩
      · intro hne e he
        rw [hrm] at he
        obtain ⟨a, ha, rfl⟩ := List.mem_map.mp he
        by_cases hd : a.1 = date
        · simp only [hd, if_true, ite_true]
          exact hmne
        · simp only [hd, if_false, ite_false]
          exact hne a ha
      · intro e he hd
        rw [hrm] at he
        obtain ⟨a, ha, rfl⟩ := List.mem_map.mp he
        by_cases had : a.1 = date
        · simp only [had, if_true, ite_true]
          exact not_mem_map_fst_filter_ne day.meals mealId
        · simp only [had, if_false, ite_false] at hd
      · intro day' hday' hnil
        have hdd : day = day' := Option.some.inj hday'
        exact absurd (hdd ▸ hmne) (not_not.mpr hnil)
      · intro day' hday' _
        have hdd : day = day' := Option.some.inj hday'
        subst hdd
        rw [hrm]
        exact findEntry_map_update h date _ (by rw [hf]; exact fun hc => by cases hc)

/-- A two-meal day entry for the `removeMeal` witness. -/
def dayTwoMeals : DayEntry := ⟨[("m1", mealStub), ("m2", mealStub)], ⟨0, 0, 0, 0, 0, 0⟩, none⟩

/-- A one-meal day entry for the `removeMeal` witness. -/
def dayOneMeal : DayEntry := ⟨[("m9", mealStub)], ⟨0, 0, 0, 0, 0, 0⟩, none⟩

/-- C4 witness: removing one of two meals keeps the day (rebuilt from the
remaining meal, with `"m1"` gone); removing the only meal of a date
deletes the date key entirely. -/
theorem removeMeal_spec_witness :
    (∀ e ∈ removeMeal [("2024-01-03", dayTwoMeals)] none "2024-01-03" "m1",
      e.2.meals ≠ []) ∧
    findEntry (removeMeal [("2024-01-03", dayTwoMeals)] none "2024-01-03" "m1")
        "2024-01-03" = some
      { meals := dayTwoMeals.meals.filter fun m => m.1 ≠ "m1"
        dailyTotals := calculateTotals
          ((dayTwoMeals.meals.filter fun m => m.1 ≠ "m1").flatMap fun m => m.2.ingredients)
        progressPercentages := calculateProgressPercentages
          (calculateTotals
            ((dayTwoMeals.meals.filter fun m => m.1 ≠ "m1").flatMap
              fun m => m.2.ingredients)) none } ∧
    findEntry (removeMeal [("2024-01-04", dayOneMeal)] none "2024-01-04" "m9")
      "2024-01-04" = none := by
  refine ⟨?_, ?_, ?_⟩
  · exact (removeMeal_spec [("2024-01-03", dayTwoMeals)] none "2024-01-03" "m1").1
      (by decide)
  · exact (removeMeal_spec [("2024-01-03", dayTwoMeals)] none "2024-01-03" "m1").2.2.2
      dayTwoMeals (by decide) (by decide)
  · exact (removeMeal_spec [("2024-01-04", dayOneMeal)] none "2024-01-04" "m9").2.2.1
      dayOneMeal (by decide) (by decide)
theorem div_mul_hundred (a b : ℚ) : a / b * 100 = 100 * a / b := by ring

/-- C9: `calculateProgressPercentages` returns `null` when the goals are
absent; otherwise each tracked nutrient's percentage is
`round(100 * actual / goal)` when the goal is positive and `0` when it is
not (zero goals produce `0`, never a division error). -/
theorem calculateProgressPercentages_spec :
    (∀ t : Totals, calculateProgressPercentages t none = none) ∧
    (∀ (t : Totals) (g : DailyGoals), ∃ p : Progress,
      calculateProgressPercentages t (some g) = some p ∧
      p.calories = (if 0 < g.targetCalories
        then ((jsRound (100 * t.calories / g.targetCalories) : ℤ) : ℚ) else 0) ∧
      p.protein = (if 0 < g.protein
        then ((jsRound (100 * t.protein / g.protein) : ℤ) : ℚ) else 0) ∧
      p.fat = (if 0 < g.fat
        then ((jsRound (100 * t.fat / g.fat) : ℤ) : ℚ) else 0) ∧
      p.carbohydrate = (if 0 < g.carbohydrate
        then ((jsRound (100 * t.carbohydrate / g.carbohydrate) : ℤ) : ℚ) else 0) ∧
      p.fiber = (if 0 < g.fiber
        then ((jsRound (100 * t.fiber / g.fiber) : ℤ) : ℚ) else 0)) ∧
    (∀ t : Totals,
      calculateProgressPercentages t (some ⟨0, 0, 0, 0, 0⟩) = some ⟨0, 0, 0, 0, 0⟩) := by
  refine ⟨fun t => rfl, fun t g => ⟨_, rfl, ?_, ?_, ?_, ?_, ?_⟩, fun t => ?_⟩
    <;> simp [calculateProgressPercentages, div_mul_hundred]

/-- C10 counterexample: with a single 150 g ingredient holding 0.33 g
protein per 100 g, `calculatePer100g` reports 0.3 (one-decimal rounding),
not the exact rescaled 0.33 — so the result does not equal the totals
rescaled by `100/totalWeight`. -/
theorem calculatePer100g_not_exact_rescale :
    (calculatePer100g [⟨"1", "x", 150, ⟨0, 33/100, 0, 0, 0⟩⟩]).protein ≠
      (calculateTotals [⟨"1", "x", 150, ⟨0, 33/100, 0, 0, 0⟩⟩]).protein *
        (100 / (calculateTotals [⟨"1", "x", 150, ⟨0, 33/100, 0, 0, 0⟩⟩]).weight) := by
  norm_num [calculatePer100g, calculateTotals, totalsStep, orZero, toFixed1, jsRound]

/-- C10 (amended): when the total weight is 0 — in particular for the
empty list — `calculatePer100g` returns the all-zero record with no
division; for positive total weight it equals the totals rescaled by
`100/totalWeight` with calories rounded to the nearest integer and the
other fields rounded to one decimal place. -/
theorem calculatePer100g_zero_guard :
    (∀ l : List Ingredient,
      (calculateTotals l).weight = 0 → calculatePer100g l = ⟨0, 0, 0, 0, 0⟩) ∧
    calculatePer100g [] = ⟨0, 0, 0, 0, 0⟩ ∧
    (∀ l : List Ingredient, 0 < (calculateTotals l).weight →
      calculatePer100g l =
        { calories :=
            ((jsRound ((calculateTotals l).calories * (100 / (calculateTotals l).weight)) : ℤ) : ℚ)
          protein := toFixed1 ((calculateTotals l).protein * (100 / (calculateTotals l).weight))
          fat := toFixed1 ((calculateTotals l).fat * (100 / (calculateTotals l).weight))
          carbohydrate :=
            toFixed1 ((calculateTotals l).carbohydrate * (100 / (calculateTotals l).weight))
          fiber := toFixed1 ((calculateTotals l).fiber * (100 / (calculateTotals l).weight)) }) := by
  refine ⟨fun l h => ?_, ?_, fun l h => ?_⟩
  · simp [calculatePer100g, h]
  · simp [calculatePer100g, calculateTotals]
  · simp [calculatePer100g, h.ne']

/-- C10 witness: the amended theorem applied to the empty list and to a
concrete 150 g ingredient. -/
theorem calculatePer100g_zero_guard_witness :
    calculatePer100g [] = ⟨0, 0, 0, 0, 0⟩ ∧
    calculatePer100g [⟨"1", "x", 150, ⟨0, 33/100, 0, 0, 0⟩⟩] =
      { calories :=
          ((jsRound ((calculateTotals [⟨"1", "x", 150, ⟨0, 33/100, 0, 0, 0⟩⟩]).calories *
            (100 / (calculateTotals [⟨"1", "x", 150, ⟨0, 33/100, 0, 0, 0⟩⟩]).weight)) : ℤ) : ℚ)
        protein := toFixed1 ((calculateTotals [⟨"1", "x", 150, ⟨0, 33/100, 0, 0, 0⟩⟩]).protein *
          (100 / (calculateTotals [⟨"1", "x", 150, ⟨0, 33/100, 0, 0, 0⟩⟩]).weight))
        fat := toFixed1 ((calculateTotals [⟨"1", "x", 150, ⟨0, 33/100, 0, 0, 0⟩⟩]).fat *
          (100 / (calculateTotals [⟨"1", "x", 150, ⟨0, 33/100, 0, 0, 0⟩⟩]).weight))
        carbohydrate :=
          toFixed1 ((calculateTotals [⟨"1", "x", 150, ⟨0, 33/100, 0, 0, 0⟩⟩]).carbohydrate *
            (100 / (calculateTotals [⟨"1", "x", 150, ⟨0, 33/100, 0, 0, 0⟩⟩]).weight))
        fiber := toFixed1 ((calculateTotals [⟨"1", "x", 150, ⟨0, 33/100, 0, 0, 0⟩⟩]).fiber *
          (100 / (calculateTotals [⟨"1", "x", 150, ⟨0, 33/100, 0, 0, 0⟩⟩]).weight)) } :=
  ⟨calculatePer100g_zero_guard.1 [] (by norm_num [calculateTotals]),
   calculatePer100g_zero_guard.2.2 [⟨"1", "x", 150, ⟨0, 33/100, 0, 0, 0⟩⟩]
     (by norm_num [calculateTotals, totalsStep, orZero])⟩
theorem parseNutrientValue_str_none (s : String)
    (hs : jsParseFloat (String.mk (replaceFirst s.toList ',' '.')) = none) :
    parseNutrientValue (.str s) = 0 := by
  simp only [parseNutrientValue, hs]

theorem parseNutrientValue_str_some (s : String) (q : ℚ)
    (hs : jsParseFloat (String.mk (replaceFirst s.toList ',' '.')) = some q) :
    parseNutrientValue (.str s) = q := by
  simp only [parseNutrientValue, hs]

/-- C6: `parseNutrientValue` passes numbers through unchanged; strings get
their first comma turned into a dot and are `parseFloat`-ed with NaN
collapsing to `0` (so `"12,5"` gives `12.5` and `"abc"` gives `0`); every
non-number non-string input — `null`, `undefined`, booleans, arrays,
objects — gives `0`; and, being a total function, it never throws. -/
theorem parseNutrientValue_spec :
    (∀ q : ℚ, parseNutrientValue (.num q) = q) ∧
    (∀ s : String, jsParseFloat (String.mk (replaceFirst s.toList ',' '.')) = none →
      parseNutrientValue (.str s) = 0) ∧
    (∀ (s : String) (q : ℚ),
      jsParseFloat (String.mk (replaceFirst s.toList ',' '.')) = some q →
      parseNutrientValue (.str s) = q) ∧
    parseNutrientValue (.str "12,5") = 25/2 ∧
    parseNutrientValue (.str "abc") = 0 ∧
    parseNutrientValue .null = 0 ∧
    parseNutrientValue .undefinedV = 0 ∧
    (∀ b : Bool, parseNutrientValue (.bool b) = 0) ∧
    (∀ xs : List JSVal, parseNutrientValue (.arr xs) = 0) ∧
    (∀ fs : List (String × JSVal), parseNutrientValue (.obj fs) = 0) := by
  refine ⟨fun q => rfl, fun s hs => parseNutrientValue_str_none s hs,
    fun s q hs => parseNutrientValue_str_some s q hs, ?_, rfl, rfl, rfl,
    fun b => rfl, fun xs => rfl, fun fs => rfl⟩
  rw [show parseNutrientValue (.str "12,5") =
    (1:ℚ) * ((digitsVal ['1','2'] : ℚ) + (digitsVal ['5'] : ℚ) / (10:ℚ)^(1:ℕ)) *
      (10:ℚ)^(0:ℤ) from rfl]
  rw [show digitsVal ['1','2'] = 12 from rfl, show digitsVal ['5'] = 5 from rfl]
  norm_num

/-- C6 witness: the string clauses of the theorem at `"xyz"` (NaN → 0)
and `"50,5"` (comma-decimal → 50.5). -/
theorem parseNutrientValue_spec_witness :
    parseNutrientValue (.str "xyz") = 0 ∧ parseNutrientValue (.str "50,5") = 101/2 :=
  ⟨parseNutrientValue_spec.2.1 "xyz" rfl,
   parseNutrientValue_spec.2.2.1 "50,5" (101/2) (by
     rw [show jsParseFloat (String.mk (replaceFirst "50,5".toList ',' '.')) =
       some ((1:ℚ) * ((digitsVal ['5','0'] : ℚ) + (digitsVal ['5'] : ℚ) / (10:ℚ)^(1:ℕ)) *
         (10:ℚ)^(0:ℤ)) from rfl]
     rw [show digitsVal ['5','0'] = 50 from rfl, show digitsVal ['5'] = 5 from rfl]
     norm_num)⟩

/-- C7 counterexample: a negative number passes through the coercion
unchanged, so `coerce(-5) = -5 < 0` — the result is not always
non-negative. -/
theorem parseNutrientValue_negative_passthrough :
    parseNutrientValue (.num (-5)) < 0 := by
  rw [show parseNutrientValue (.num (-5)) = (-5 : ℚ) from rfl]
  norm_num

/-- C7 (amended): `parseNutrientValue` is non-negative except that
negative numbers — given directly or as a string parsing to a negative
value — pass through unclamped; all fallback paths yield `0 ≥ 0`. -/
theorem parseNutrientValue_nonneg (v : JSVal)
    (h1 : ∀ q : ℚ, v = .num q → 0 ≤ q)
    (h2 : ∀ (s : String) (q : ℚ), v = .str s →
      jsParseFloat (String.mk (replaceFirst s.toList ',' '.')) = some q → 0 ≤ q) :
    0 ≤ parseNutrientValue v := by
  match v with
  | .num q => exact h1 q rfl
  | .str s =>
    cases hp : jsParseFloat (String.mk (replaceFirst s.toList ',' '.')) with
    | none =>
      rw [parseNutrientValue_str_none s hp]
    | some q =>
      rw [parseNutrientValue_str_some s q hp]
      exact h2 s q rfl hp
  | .null => exact le_refl 0
  | .undefinedV => exact le_refl 0
  | .bool b => exact le_refl 0
  | .arr xs => exact le_refl 0
  | .obj fs => exact le_refl 0

/-- C7 witness: the amended theorem at the number `5`. -/
theorem parseNutrientValue_nonneg_witness : 0 ≤ parseNutrientValue (.num 5) :=
  parseNutrientValue_nonneg (.num 5)
    (fun q h => by cases h; norm_num)
    (fun s q hs _ => by cases hs)
/-- `Array.isArray` of the guard in `parseIngredients`. -/
def isArray : JSVal → Bool
  | .arr _ => true
  | _ => false

theorem getField_setField_self (o : List (String × JSVal)) (k : String) (v : JSVal) :
    getField (setField o k v) k = v := by
  induction o with
  | nil => simp [setField, getField]
  | cons f rest ih =>
    by_cases hk : f.1 = k
    · simp [setField, hk, getField]
    · simp [setField, hk, getField, ih]

theorem getField_setField_ne (o : List (String × JSVal)) (k k' : String) (v : JSVal)
    (h : k ≠ k') : getField (setField o k v) k' = getField o k' := by
  induction o with
  | nil => simp [setField, getField, h]
  | cons f rest ih =>
    by_cases hk : f.1 = k
    · simp [setField, hk, getField, h, hk ▸ h]
    · simp only [setField, hk, if_false, ite_false]
      by_cases hk' : f.1 = k'
      · simp [getField, hk']
      · simp [getField, hk', ih]

theorem filterMap_id_map_eq {α β : Type} (f : α → Option β) (l : List α) :
    (l.map f).filterMap id = l.filterMap f := by
  rw [List.filterMap_map]
  rfl

/-- C5: `parseIngredients` returns `null` for every non-array input;
array elements that are not non-null objects with a truthy `name` (arrays,
`null`, primitives, empty-name objects) are dropped without failing the
batch; each survivor has all six nutrient fields coerced through
`parseNutrientValue`, with `weight` defaulting to `100` when the coercion
is falsy (absent field or 0); and when no element survives the result is
`null`, never an empty list.  The spec's example keeps only `apple`, with
default weight 100. -/
theorem parseIngredients_spec :
    (∀ v : JSVal, isArray v = false → parseIngredients v = none) ∧
    (∀ items : List JSVal, parseIngredients (.arr items) = none ↔
      ∀ item ∈ items, normalizeItem item = none) ∧
    (∀ (items : List JSVal) (l : List JSVal),
      parseIngredients (.arr items) = some l → l ≠ []) ∧
    (∀ item : JSVal,
      (isArray item = true ∨ item = .null ∨ jsTruthy (objGet item "name") = false) →
      normalizeItem item = none) ∧
    (∀ (fields : List (String × JSVal)) (o : JSVal),
      normalizeItem (.obj fields) = some o →
      objGet o "weight" = .num
        (if parseNutrientValue (getField fields "weight") = 0 then 100
         else parseNutrientValue (getField fields "weight")) ∧
      objGet o "calories" = .num (parseNutrientValue (getField fields "calories")) ∧
      objGet o "protein" = .num (parseNutrientValue (getField fields "protein")) ∧
      objGet o "fat" = .num (parseNutrientValue (getField fields "fat")) ∧
      objGet o "carbohydrate" = .num (parseNutrientValue (getField fields "carbohydrate")) ∧
      objGet o "fiber" = .num (parseNutrientValue (getField fields "fiber"))) ∧
    parseIngredients (.arr [.obj [("name", .str "apple")], .obj [("foo", .num 1)],
        .obj [("name", .str ""), ("calories", .num 5)]]) =
      some [.obj [("name", .str "apple"), ("calories", .num 0), ("protein", .num 0),
        ("fat", .num 0), ("carbohydrate", .num 0), ("fiber", .num 0),
        ("weight", .num 100)]] := by
  refine ⟨?_, ?_, ?_, ?_, ?_, ?_⟩
  · intro v hv
    cases v <;> first | rfl | simp [isArray] at hv
  · intro items
    rw [show parseIngredients (.arr items) =
      (if 0 < ((items.map normalizeItem).filterMap id).length
       then some ((items.map normalizeItem).filterMap id) else none) from rfl]
    rw [filterMap_id_map_eq]
    by_cases hl : items.filterMap normalizeItem = []
    · simp only [hl, List.length_nil, lt_irrefl, if_false, ite_false]
      simp only [List.filterMap_eq_nil_iff] at hl
      exact iff_of_true trivial hl
    · have hpos : 0 < (items.filterMap normalizeItem).length :=
        List.length_pos.mpr hl
      simp only [hpos, if_true, ite_true]
      constructor
      · intro hc; cases hc
      · intro hall
        exact absurd (List.filterMap_eq_nil_iff.mpr hall) hl
  · intro items l hsome
    rw [show parseIngredients (.arr items) =
      (if 0 < ((items.map normalizeItem).filterMap id).length
       then some ((items.map normalizeItem).filterMap id) else none) from rfl] at hsome
    by_cases hpos : 0 < ((items.map normalizeItem).filterMap id).length
    · rw [if_pos hpos] at hsome
      cases hsome
      exact List.length_pos.mp hpos
    · rw [if_neg hpos] at hsome
      cases hsome
  · intro item hitem
    match item with
    | .null => rfl
    | .undefinedV => rfl
    | .bool b => rfl
    | .num q => rfl
    | .str s => rfl
    | .arr xs => rfl
    | .obj fields =>
      rcases hitem with h | h | h
      · simp [isArray] at h
      · cases h
      · simp only [normalizeItem]
        rw [if_neg]
        simp only [objGet] at h
        simp [h]
  · intro fields o ho
    simp only [normalizeItem] at ho
    by_cases hname : jsTruthy (getField fields "name") = true
    · rw [if_pos hname] at ho
      cases ho
      refine ⟨?_, ?_, ?_, ?_, ?_, ?_⟩
      · simp only [objGet, getField_setField_self]
      · simp only [objGet]
        rw [getField_setField_ne _ _ _ _ (by decide),
          getField_setField_ne _ _ _ _ (by decide),
          getField_setField_ne _ _ _ _ (by decide),
          getField_setField_ne _ _ _ _ (by decide),
          getField_setField_ne _ _ _ _ (by decide),
          getField_setField_self]
      · simp only [objGet]
        rw [getField_setField_ne _ _ _ _ (by decide),
          getField_setField_ne _ _ _ _ (by decide),
          getField_setField_ne _ _ _ _ (by decide),
          getField_setField_ne _ _ _ _ (by decide),
          getField_setField_self]
      · simp only [objGet]
        rw [getField_setField_ne _ _ _ _ (by decide),
          getField_setField_ne _ _ _ _ (by decide),
          getField_setField_ne _ _ _ _ (by decide),
          getField_setField_self]
      · simp only [objGet]
        rw [getField_setField_ne _ _ _ _ (by decide),
          getField_setField_ne _ _ _ _ (by decide),
          getField_setField_self]
      · simp only [objGet]
        rw [getField_setField_ne _ _ _ _ (by decide),
          getField_setField_self]
    · rw [if_neg hname] at ho
      cases ho
  · rfl

/-- C5 witness: the non-array clause at the number `3`, and the
field-coercion clause at the one-field object `{name: "a"}` (whose
normalization gets default weight 100 and zero nutrient fields). -/
theorem parseIngredients_spec_witness :
    parseIngredients (.num 3) = none ∧
    (objGet (.obj [("name", .str "a"), ("calories", .num 0), ("protein", .num 0),
        ("fat", .num 0), ("carbohydrate", .num 0), ("fiber", .num 0),
        ("weight", .num 100)]) "weight" = .num
      (if parseNutrientValue (getField [("name", JSVal.str "a")] "weight") = 0 then 100
       else parseNutrientValue (getField [("name", JSVal.str "a")] "weight")) ∧
     objGet (.obj [("name", .str "a"), ("calories", .num 0), ("protein", .num 0),
        ("fat", .num 0), ("carbohydrate", .num 0), ("fiber", .num 0),
        ("weight", .num 100)]) "calories" =
       .num (parseNutrientValue (getField [("name", JSVal.str "a")] "calories")) ∧
     objGet (.obj [("name", .str "a"), ("calories", .num 0), ("protein", .num 0),
        ("fat", .num 0), ("carbohydrate", .num 0), ("fiber", .num 0),
        ("weight", .num 100)]) "protein" =
       .num (parseNutrientValue (getField [("name", JSVal.str "a")] "protein")) ∧
     objGet (.obj [("name", .str "a"), ("calories", .num 0), ("protein", .num 0),
        ("fat", .num 0), ("carbohydrate", .num 0), ("fiber", .num 0),
        ("weight", .num 100)]) "fat" =
       .num (parseNutrientValue (getField [("name", JSVal.str "a")] "fat")) ∧
     objGet (.obj [("name", .str "a"), ("calories", .num 0), ("protein", .num 0),
        ("fat", .num 0), ("carbohydrate", .num 0), ("fiber", .num 0),
        ("weight", .num 100)]) "carbohydrate" =
       .num (parseNutrientValue (getField [("name", JSVal.str "a")] "carbohydrate")) ∧
     objGet (.obj [("name", .str "a"), ("calories", .num 0), ("protein", .num 0),
        ("fat", .num 0), ("carbohydrate", .num 0), ("fiber", .num 0),
        ("weight", .num 100)]) "fiber" =
       .num (parseNutrientValue (getField [("name", JSVal.str "a")] "fiber"))) :=
  ⟨parseIngredients_spec.1 (.num 3) rfl,
   parseIngredients_spec.2.2.2.2.1 [("name", JSVal.str "a")] _ rfl⟩
/-- C8 counterexample: on raw text with no brace-delimited substring
(`"abc"`), both parse attempts fail and the thrown error is the fixed
message `aiErrorMsg`, which does not contain the original raw text — the
raw content is only logged to the console, never surfaced in the error. -/
theorem extractJson_error_lacks_raw_text :
    extractJson "abc" = .error (.noJson aiErrorMsg) ∧
    strContainsSub aiErrorMsg "abc" = false := by
  constructor
  · rfl
  · rfl

/-- C8 (amended): `extractJson` first attempts a direct `JSON.parse` of
the raw text; on failure it takes the substring from the first `\x7b` to
the last `\x7d` (the greedy regex match) and attempts to parse that; if no
such substring exists it throws a fixed message (not containing the raw
text), and if the substring fails to parse, the JSON parser's own error
propagates. -/
theorem extractJson_fallback :
    (∀ (raw : String) (v : JSVal), jsonParse raw = some v → extractJson raw = .ok v) ∧
    (∀ raw : String, jsonParse raw = none → extractBraced raw = none →
      extractJson raw = .error (.noJson aiErrorMsg)) ∧
    (∀ (raw sub : String) (v : JSVal), jsonParse raw = none → extractBraced raw = some sub →
      jsonParse sub = some v → extractJson raw = .ok v) ∧
    (∀ raw sub : String, jsonParse raw = none → extractBraced raw = some sub →
      jsonParse sub = none → extractJson raw = .error .jsonError) ∧
    extractBraced "xx\x7b\"a\":1\x7dyy" = some "\x7b\"a\":1\x7d" ∧
    extractJson "xx\x7b\"a\":1\x7dyy" = .ok (.obj [("a", .num 1)]) := by
  refine ⟨?_, ?_, ?_, ?_, ?_, ?_⟩
  · intro raw v h
    simp only [extractJson, h]
  · intro raw h1 h2
    simp only [extractJson, h1, h2]
  · intro raw sub v h1 h2 h3
    simp only [extractJson, h1, h2, h3]
  · intro raw sub h1 h2 h3
    simp only [extractJson, h1, h2, h3]
  · rfl
  · rw [show extractJson "xx\x7b\"a\":1\x7dyy" = .ok (.obj [("a", .num
      ((1:ℚ) * ((digitsVal ['1'] : ℚ) + (digitsVal ([] : List Char) : ℚ) / (10:ℚ)^(0:ℕ)) *
        (10:ℚ)^(0:ℤ)))]) from rfl]
    rw [show digitsVal ['1'] = 1 from rfl, show digitsVal ([] : List Char) = 0 from rfl]
    norm_num

/-- C8 witness: the theorem's clauses at concrete inputs — a directly
parsable `"3"`, a braceless `"zz"`, and `"x\x7b,\x7dy"` whose braced
substring `"\x7b,\x7d"` is itself unparsable. -/
theorem extractJson_fallback_witness :
    extractJson "3" = .ok (.num ((1:ℚ) * ((digitsVal ['3'] : ℚ) +
      (digitsVal ([] : List Char) : ℚ) / (10:ℚ)^(0:ℕ)) * (10:ℚ)^(0:ℤ))) ∧
    extractJson "zz" = .error (.noJson aiErrorMsg) ∧
    extractJson "x\x7b,\x7dy" = .error .jsonError :=
  ⟨extractJson_fallback.1 "3" _ rfl,
   extractJson_fallback.2.1 "zz" rfl rfl,
   extractJson_fallback.2.2.2.1 "x\x7b,\x7dy" "\x7b,\x7d" rfl rfl rfl⟩
